import Mathlib

/-
Shallow embedding of the rnd_simple_db Django application (src/src/rnd/).

Model statuses are plain strings, exactly as the Django CharFields store
them.  Foreign keys are represented by the referenced row (the way Python
attribute access dereferences them) or by the referenced primary key,
depending on what the source code reads.  Fallible validation code
(Model.clean, Model.save, which call full_clean and may raise
ValidationError) is embedded as Except-valued functions.
-/

/-- The field a ValidationError is raised on, mirroring the dictionary keys
used in the source's raise ValidationError calls. -/
inductive VErr where
  | number
  | main_contract
  | previous_version
  | contract
  | uuid
  | contract_document
deriving Repr, DecidableEq

/-- rnd/models.py ContractType: only the fields the embedded logic reads.
parent_type is stored as the referenced row's primary key (Django instance
equality compares primary keys). -/
structure ContractType where
  id : Nat
  is_supplementary : Bool
  parent_type : Option Nat
deriving Repr, DecidableEq

/-- The main_contract foreign key of a Contract.  Python lets clean assign
the instance itself (self.main_contract = self); selfRef models that
aliasing, other models a reference to a distinct contract object carrying
its primary key and its (dereferenced) type row. -/
inductive MainRef where
  | selfRef
  | other (id : Option Nat) (ctype : ContractType)
deriving Repr, DecidableEq

/-- rnd/models.py Contract: the fields read by clean, save and the signal
handlers.  previous_version stores, when the FK is set, the referenced
object's primary key (which is itself Option: an unsaved object has pk
None). -/
structure Contract where
  id : Option Nat
  type : ContractType
  number : String
  status : String
  main_contract : Option MainRef
  previous_version : Option (Option Nat)
deriving Repr, DecidableEq

/-- Resolve the primary key of a main_contract reference, as Python's
self.main_contract.id does. -/
def Contract.mcId (self : Contract) : MainRef → Option Nat
  | .selfRef => self.id
  | .other i _ => i

/-- Resolve the type row of a main_contract reference, as Python's
self.main_contract.type does. -/
def Contract.mcType (self : Contract) : MainRef → ContractType
  | .selfRef => self.type
  | .other _ t => t

/-- Django model equality between instance.main_contract and instance
itself: None compares unequal; the very same object compares equal; two
objects compare equal exactly when both primary keys are set and equal
(Model.__eq__ falls back to identity when the pk is None). -/
def mainEqSelf (self : Contract) : Option MainRef → Bool
  | none => false
  | some .selfRef => true
  | some (.other i _) =>
    match i, self.id with
    | some a, some b => a == b
    | _, _ => false

/-- Python str.strip(): drop whitespace from both ends. -/
def pyStrip (s : String) : String :=
  String.mk
    (((s.data.dropWhile Char.isWhitespace).reverse.dropWhile
        Char.isWhitespace).reverse)

/-- The main_contract block of Contract.clean (models.py lines 191-219):
a supplementary document needs a main contract that is itself a main
document of exactly the supplementary type's parent type; a main document
may not point at a different contract and gets main_contract = self. -/
def Contract.cleanMainContract (self : Contract) : Except VErr Contract :=
  if self.type.is_supplementary then
    match self.main_contract with
    | none => Except.error VErr.main_contract
    | some mc =>
      if (self.mcType mc).is_supplementary then
        Except.error VErr.main_contract
      else if some (self.mcType mc).id ≠ self.type.parent_type then
        Except.error VErr.main_contract
      else Except.ok self
  else
    match self.main_contract with
    | some mc =>
      if self.mcId mc ≠ self.id then Except.error VErr.main_contract
      else Except.ok { self with main_contract := some MainRef.selfRef }
    | none => Except.ok { self with main_contract := some MainRef.selfRef }

/-- Contract.clean (models.py lines 184-225): number must be non-blank,
then the main_contract block runs, then previous_version may not be the
document itself. -/
def Contract.clean (self : Contract) : Except VErr Contract :=
  if pyStrip self.number = "" then Except.error VErr.number
  else
    match self.cleanMainContract with
    | Except.error e => Except.error e
    | Except.ok s2 =>
      match s2.previous_version with
      | some pv =>
        if pv = s2.id then Except.error VErr.previous_version else Except.ok s2
      | none => Except.ok s2

/-- Contract.save (models.py lines 227-230) runs full_clean; the custom
validation part of full_clean is Contract.clean. -/
def Contract.save (self : Contract) : Except VErr Contract :=
  self.clean

/-- Contract.is_main_contract property: not type.is_supplementary. -/
def Contract.is_main_contract (self : Contract) : Bool :=
  !self.type.is_supplementary

/-- rnd/models.py RnD: the fields read by clean, save and
sync_status_with_contract.  contract is the dereferenced foreign key. -/
structure RnD where
  id : Option Nat
  contract : Option Contract
  uuid : String
  code : String
  status : String
  last_contract_status : Option String
deriving Repr, DecidableEq

/-- The status_mapping dictionary with its .get(_, 'in_progress') default,
shared by sync_status_with_contract and the post_save signal handler. -/
def status_mapping (s : String) : String :=
  if s = "active" then "in_progress"
  else if s = "suspended" then "suspended"
  else if s = "completed" then "completed"
  else if s = "terminated" then "contract_terminated"
  else "in_progress"

/-- RnD.sync_status_with_contract (models.py lines 402-428).  Returns the
updated instance and the boolean the Python method returns. -/
def RnD.sync_status_with_contract (self : RnD) (force : Bool) : RnD × Bool :=
  match self.contract with
  | none => (self, false)
  | some c =>
    let contract_status := c.status
    if !force && self.last_contract_status == some contract_status then
      (self, false)
    else
      let new_status := status_mapping contract_status
      if self.status ≠ new_status || force then
        ({ self with status := new_status,
                     last_contract_status := some contract_status }, true)
      else (self, false)

/-- RnD.clean (models.py lines 385-400): contract must not be a
supplementary agreement, uuid must be non-blank, then the status is
synchronized (force defaults to False). -/
def RnD.clean (self : RnD) : Except VErr RnD :=
  if (match self.contract with
      | some c => c.type.is_supplementary
      | none => false) then Except.error VErr.contract
  else if pyStrip self.uuid = "" then Except.error VErr.uuid
  else Except.ok (self.sync_status_with_contract false).1

/-- RnD.save (models.py lines 430-440): full_clean (whose custom part is
clean), then a second synchronization, forced for new objects (pk None). -/
def RnD.save (self : RnD) : Except VErr RnD :=
  match self.clean with
  | Except.error e => Except.error e
  | Except.ok s =>
    if s.id.isSome then Except.ok (s.sync_status_with_contract false).1
    else Except.ok (s.sync_status_with_contract true).1

/-- rnd/models.py TechnicalSpecification: the fields read by clean, save
and get_upload_path.  rnd and contract_document are the dereferenced
foreign keys. -/
structure TechnicalSpecification where
  id : Option Nat
  rnd : Option RnD
  contract_document : Option Contract
  is_active : Bool
deriving Repr, DecidableEq

/-- A calendar date, the part of timezone.now() the path code formats. -/
structure Date where
  year : Nat
  month : Nat
  day : Nat
deriving Repr, DecidableEq

/-- Zero-pad a number to a given width, as strftime field formatting does. -/
def zpad (w : Nat) (n : Nat) : String :=
  let s := toString n
  String.mk (List.replicate (w - s.length) (Char.ofNat 48)) ++ s

/-- strftime with format string percent-Y_percent-m_percent-d. -/
def strftimeYmdUnderscore (d : Date) : String :=
  zpad 4 d.year ++ "_" ++ zpad 2 d.month ++ "_" ++ zpad 2 d.day

/-- strftime with format string percent-y percent-m percent-d (two-digit
year, no separators), used by UploadPathFactory. -/
def strftimeYymmdd (d : Date) : String :=
  zpad 2 (d.year % 100) ++ zpad 2 d.month ++ zpad 2 d.day

/-- os.path.join for relative, separator-free components, which is what
the path builders pass (Django basenames uploaded filenames before they
reach upload_to, and rnd.uuid is a slug). -/
def ospathJoin (parts : List String) : String :=
  String.intercalate "/" parts

/-- TechnicalSpecification.get_upload_path (models.py lines 475-503),
with the current date passed explicitly. -/
def TechnicalSpecification.get_upload_path
    (self : TechnicalSpecification) (now : Date) (filename : String) : String :=
  match self.rnd with
  | some rnd =>
    let current_date := strftimeYmdUnderscore now
    let folder_name := rnd.uuid ++ "_ts_" ++ current_date
    ospathJoin [rnd.uuid, "technical_specifications", "ts", folder_name, filename]
  | none =>
    let current_date := strftimeYmdUnderscore now
    ospathJoin ["temp", "technical_specifications", current_date, filename]

/-- os.path.splitext(p)[1] for a separator-free filename: the suffix from
the last dot, provided some character strictly before that dot is not a
dot (leading dots are not extension separators in CPython). -/
def splitextExtAux : List Char → List Char → Option String
  | [], _ => none
  | c :: rest, acc =>
    if c = Char.ofNat 46 then
      if rest.any (fun x => x ≠ Char.ofNat 46) then
        some (String.mk (c :: acc))
      else none
    else splitextExtAux rest (c :: acc)

/-- The extension part of os.path.splitext. -/
def splitextExt (p : String) : String :=
  match splitextExtAux p.data.reverse [] with
  | some e => e
  | none => ""

/-- Python str.lower() for the ASCII filenames at hand. -/
def pyLower (s : String) : String :=
  String.mk (s.data.map Char.toLower)

/-- UploadPathFactory helper get_rnd_uuid_safe (utils.py lines 33-43): the
rnd's uuid when the instance has one, else a temp_ name built from a fresh
random uuid4 fragment, passed here explicitly. -/
def UploadPathFactory.getRndUuidSafe
    (inst : TechnicalSpecification) (tempUuid : String) : String :=
  match inst.rnd with
  | some r => r.uuid
  | none => "temp_" ++ tempUuid

/-- UploadPathFactory.for_technical_specification (utils.py lines 13-21).
fileUuid models the fresh uuid.uuid4().hex[:8] drawn on each invocation,
tempUuid the one drawn inside the fallback of the uuid helper, and now the
current date; all three are invocation context, not arguments of the
Python function. -/
def UploadPathFactory.for_technical_specification
    (inst : TechnicalSpecification) (filename : String)
    (now : Date) (fileUuid : String) (tempUuid : String) : String :=
  let file_ext := pyLower (splitextExt filename)
  let safe_filename := fileUuid ++ file_ext
  let date_short := strftimeYymmdd now
  let rnd_uuid := UploadPathFactory.getRndUuidSafe inst tempUuid
  ospathJoin [rnd_uuid, "tech_spec", date_short, safe_filename]

/-- The primary key stored in a TechnicalSpecification's rnd foreign key
column. -/
def TechnicalSpecification.rndPk (t : TechnicalSpecification) : Option Nat :=
  t.rnd.bind (fun r => r.id)

/-- Django model equality restricted to saved rows: two model instances
compare equal exactly when both primary keys are set and equal. -/
def pkEq : Option Nat → Option Nat → Bool
  | some a, some b => a == b
  | _, _ => false

/-- Python comparison contract_document.main_contract == rnd.contract in
TechnicalSpecification.clean: None equals None, None never equals an
object, and two objects compare by primary key. -/
def mainMatchesRndContract (cd : Contract) : Option Contract → Bool
  | none =>
    match cd.main_contract with
    | none => true
    | some _ => false
  | some rc =>
    match cd.main_contract with
    | none => false
    | some mc => pkEq (cd.mcId mc) rc.id

/-- The bulk update in TechnicalSpecification.clean (models.py lines
576-580): filter(rnd=self.rnd, is_active=True).exclude(id=self.id)
.update(is_active=False).  A filter against an unsaved rnd (pk None)
matches no row, as the generated SQL equality against NULL does. -/
def deactivate_other_versions (self : TechnicalSpecification)
    (db : List TechnicalSpecification) : List TechnicalSpecification :=
  match self.rnd with
  | none => db
  | some r =>
    match r.id with
    | none => db
    | some k =>
      db.map fun t =>
        if t.rndPk == some k && t.is_active && t.id != self.id then
          { t with is_active := false }
        else t

/-- The document check of TechnicalSpecification.clean (models.py lines
556-573): the contract_document must be the rnd's own main contract, or a
supplementary agreement attached to it. -/
def TechnicalSpecification.documentOk (self : TechnicalSpecification) :
    Bool :=
  match self.rnd, self.contract_document with
  | some r, some cd =>
    if cd.is_main_contract then
      match r.contract with
      | none => false
      | some rc => pkEq cd.id rc.id
    else mainMatchesRndContract cd r.contract
  | _, _ => true

/-- TechnicalSpecification.clean (models.py lines 553-580): the document
check, then an active version deactivates every other active version of
the same rnd directly in the database. -/
def TechnicalSpecification.clean (self : TechnicalSpecification)
    (db : List TechnicalSpecification) :
    Except VErr (List TechnicalSpecification) :=
  if self.documentOk then
    Except.ok (if self.is_active then deactivate_other_versions self db else db)
  else Except.error VErr.contract_document

/-- A fresh primary key for an inserted row: one past the largest key in
the table. -/
def tsFreshId (db : List TechnicalSpecification) : Nat :=
  (db.filterMap (fun t => t.id)).foldl max 0 + 1

/-- TechnicalSpecification.save (models.py lines 582-585): full_clean
(whose custom part is clean, including its bulk update), then the ORM
write of the instance itself: an UPDATE of the row with its pk, or an
INSERT under a fresh pk. -/
def TechnicalSpecification.save (self : TechnicalSpecification)
    (db : List TechnicalSpecification) :
    Except VErr (TechnicalSpecification × List TechnicalSpecification) :=
  match self.clean db with
  | Except.error e => Except.error e
  | Except.ok db2 =>
    match self.id with
    | some k =>
      if db2.any (fun t => t.id == some k) then
        Except.ok (self, db2.map (fun t => if t.id == some k then self else t))
      else Except.ok (self, db2 ++ [self])
    | none =>
      let stored := { self with id := some (tsFreshId db2) }
      Except.ok (stored, db2 ++ [stored])

/-- The database state the contract save pipeline acts on. -/
structure DB where
  contracts : List Contract
  rnds : List RnD
deriving Repr, DecidableEq

/-- pre_save receiver track_contract_status_change (signals.py lines 7-17,
duplicated at models.py lines 702-714): the status-changed flag computed
from the stored row, False for a new instance or a missing row. -/
def track_contract_status_change
    (inst : Contract) (contracts : List Contract) : Bool :=
  match inst.id with
  | none => false
  | some k =>
    match contracts.find? (fun c => c.id == some k) with
    | some old => old.status != inst.status
    | none => false

/-- Membership in RnD.objects.filter(contract=instance): the row's
contract foreign key equals the saved contract's primary key. -/
def rndLinkedTo (inst : Contract) (r : RnD) : Bool :=
  match inst.id with
  | none => false
  | some k => (r.contract.bind (fun c => c.id)) == some k

/-- post_save receiver update_rnd_status_on_contract_status_change
(signals.py lines 20-44): when a main contract's status changed, every
linked RnD whose status differs from the mapped status gets the mapped
status and the contract's status recorded. -/
def update_rnd_status_on_contract_status_change
    (inst : Contract) (statusChanged : Bool) (rnds : List RnD) : List RnD :=
  if inst.is_main_contract && statusChanged then
    let new_status := status_mapping inst.status
    rnds.map fun r =>
      if rndLinkedTo inst r && r.status != new_status then
        { r with status := new_status,
                 last_contract_status := some inst.status }
      else r
  else rnds

/-- The duplicate post_save receiver defined at models.py lines 717-758:
same selection, same mapping, same bulk update; it additionally re-sends
post_save for each updated RnD, for which no receiver is registered, so
its database effect is the list below. -/
def models_update_rnd_status_on_contract_status_change
    (inst : Contract) (statusChanged : Bool) (rnds : List RnD) : List RnD :=
  if inst.is_main_contract && statusChanged then
    let new_status := status_mapping inst.status
    rnds.map fun r =>
      if rndLinkedTo inst r && r.status != new_status then
        { r with status := new_status,
                 last_contract_status := some inst.status }
      else r
  else rnds

/-- The condition of post_save receiver ensure_main_contract_integrity
(signals.py lines 47-52): a saved non-supplementary contract whose
main_contract does not equal the instance itself. -/
def ensure_main_contract_integrity_fires (inst : Contract) : Bool :=
  !inst.type.is_supplementary && !(mainEqSelf inst inst.main_contract)

/-- The in-memory effect of ensure_main_contract_integrity: reassign
main_contract = instance when the condition fires. -/
def ensure_main_contract_integrity (inst : Contract) : Contract :=
  if ensure_main_contract_integrity_fires inst then
    { inst with main_contract := some MainRef.selfRef }
  else inst

/-- The ORM write of a contract: UPDATE of the row with its pk when it
exists, INSERT (under a fresh pk for a new instance) otherwise. -/
def storeContract (c : Contract) (db : List Contract) :
    Contract × List Contract :=
  match c.id with
  | some k =>
    if db.any (fun x => x.id == some k) then
      (c, db.map (fun x => if x.id == some k then c else x))
    else (c, db ++ [c])
  | none =>
    let k := (db.filterMap (fun x => x.id)).foldl max 0 + 1
    let c2 := { c with id := some k }
    (c2, db ++ [c2])

/-- One full contract save as Django executes it: full_clean, the
pre_save tracker, the row write, then the post_save receivers.  When
ensure_main_contract_integrity fires it assigns main_contract = instance
and saves once more with update_fields = [main_contract], which runs the
same pipeline again; after that round main_contract is selfRef, so the
condition cannot fire a third time and the recursion stops. -/
def Contract.savePipeline (inst : Contract) (db : DB) :
    Except VErr (Contract × DB) :=
  match inst.clean with
  | Except.error e => Except.error e
  | Except.ok cleaned =>
    let changed := track_contract_status_change cleaned db.contracts
    let sc := storeContract cleaned db.contracts
    let stored := sc.1
    let contracts1 := sc.2
    let rnds1 :=
      update_rnd_status_on_contract_status_change stored changed db.rnds
    if ensure_main_contract_integrity_fires stored then
      let fixed := { stored with main_contract := some MainRef.selfRef }
      match fixed.clean with
      | Except.error e => Except.error e
      | Except.ok cleaned2 =>
        let changed2 := track_contract_status_change cleaned2 contracts1
        let sc2 := storeContract cleaned2 contracts1
        let stored2 := sc2.1
        let contracts2 := sc2.2
        let rnds2 :=
          update_rnd_status_on_contract_status_change stored2 changed2 rnds1
        Except.ok (stored2, DB.mk contracts2 rnds2)
    else
      Except.ok (stored, DB.mk contracts1 rnds1)

/-- The Django signals a receiver can be connected to here. -/
inductive SignalKind where
  | preSave
  | postSave
deriving Repr, DecidableEq

/-- The receivers connected for sender Contract when the application
starts: importing rnd.models registers its two module-level receivers,
and RndConfig.ready imports rnd.signals, registering three more (Django
does not deduplicate distinct function objects). -/
def registeredContractSignalHandlers : List (SignalKind × String) :=
  [(SignalKind.preSave, "models.track_contract_status_change"),
   (SignalKind.postSave, "models.update_rnd_status_on_contract_status_change"),
   (SignalKind.preSave, "signals.track_contract_status_change"),
   (SignalKind.postSave, "signals.update_rnd_status_on_contract_status_change"),
   (SignalKind.postSave, "signals.ensure_main_contract_integrity")]

/-- A main (non-supplementary) contract type. -/
def mainType : ContractType :=
  { id := 1, is_supplementary := false, parent_type := none }

/-- A supplementary contract type whose parent type is mainType. -/
def suppType : ContractType :=
  { id := 2, is_supplementary := true, parent_type := some 1 }

/-- A second main contract type, not the parent of suppType. -/
def otherMainType : ContractType :=
  { id := 3, is_supplementary := false, parent_type := none }

/-- A stored main contract, currently suspended. -/
def mainC : Contract :=
  { id := some 5, type := mainType, number := "N-1", status := "suspended",
    main_contract := some MainRef.selfRef, previous_version := none }

/-- The same main contract re-saved with status active. -/
def mainCActive : Contract := { mainC with status := "active" }

/-- A second stored main contract. -/
def otherC : Contract :=
  { id := some 7, type := otherMainType, number := "N-2", status := "active",
    main_contract := some MainRef.selfRef, previous_version := none }

/-- A stored supplementary agreement attached to mainC. -/
def suppC : Contract :=
  { id := some 6, type := suppType, number := "DS-1", status := "active",
    main_contract := some (MainRef.other (some 5) mainType),
    previous_version := none }

/-- An RnD under mainC whose status already equals the status mapped from
active, but whose recorded contract status is still suspended. -/
def rnd1 : RnD :=
  { id := some 11, contract := some mainC, uuid := "rnd-1", code := "K-1",
    status := "in_progress", last_contract_status := some "suspended" }

/-- An RnD under mainC still carrying the suspended status. -/
def rnd2 : RnD :=
  { id := some 12, contract := some mainC, uuid := "rnd-2", code := "K-2",
    status := "suspended", last_contract_status := some "suspended" }

/-- An RnD under the unrelated contract otherC. -/
def rndOther : RnD :=
  { id := some 13, contract := some otherC, uuid := "rnd-3", code := "K-3",
    status := "suspended", last_contract_status := some "suspended" }

/-- A fixed calendar date used by the path witnesses. -/
def d0 : Date := { year := 2026, month := 10, day := 12 }

/-- A concrete specification attached to rnd1, used by the path claims. -/
def tsOnRnd1 : TechnicalSpecification :=
  { id := some 21, rnd := some rnd1, contract_document := some mainC,
    is_active := true }

/-- A stored main contract whose main_contract reference is unset, the
state the integrity receiver exists to repair. -/
def mainCNoMain : Contract := { mainC with main_contract := none }

/-- rnd2 as the cascade leaves it after mainC turns active. -/
def rnd2Updated : RnD :=
  { rnd2 with status := "in_progress", last_contract_status := some "active" }

/-- The database state before mainC is re-saved with status active. -/
def dbBefore : DB := DB.mk [mainC, otherC] [rnd1, rnd2, rndOther]

/-- A stored older specification of rnd1, currently active. -/
def tsOld : TechnicalSpecification :=
  { id := some 22, rnd := some rnd1, contract_document := some mainC,
    is_active := true }

/-- A stored specification of the unrelated rndOther. -/
def tsOther : TechnicalSpecification :=
  { id := some 23, rnd := some rndOther, contract_document := some otherC,
    is_active := true }

/-- tsOld as the bulk update leaves it. -/
def tsOldDeactivated : TechnicalSpecification :=
  { tsOld with is_active := false }

/-- The supplementary agreement re-saved with a new status. -/
def suppCSuspended : Contract := { suppC with status := "suspended" }

/-- The database state before suppC is re-saved. -/
def dbForSupp : DB := DB.mk [mainC, suppC] [rnd1, rnd2]

/-- C10: sync_status_with_contract with force False is idempotent: for an
RnD with a contract, whatever the first call returned, an immediately
following second call returns False and changes neither the instance's
status nor its last_contract_status. -/
theorem sync_status_with_contract_idempotent (r : RnD) (c : Contract)
    (h : r.contract = some c) :
    ((r.sync_status_with_contract false).1.sync_status_with_contract false) =
      ((r.sync_status_with_contract false).1, false) := by
  by_cases h1 : r.last_contract_status = some c.status
  · simp [RnD.sync_status_with_contract, h, h1]
  · by_cases h2 : r.status = status_mapping c.status
    · simp [RnD.sync_status_with_contract, h, h1, h2]
    · simp [RnD.sync_status_with_contract, h, h1, h2]

/-- Witness for C10 at a concrete RnD whose recorded contract status is
stale: the second synchronization is a no-op. -/
theorem sync_status_with_contract_idempotent_witness :
    rnd1.contract = some mainC ∧
    ((rnd1.sync_status_with_contract false).1.sync_status_with_contract
        false) =
      ((rnd1.sync_status_with_contract false).1, false) :=
  ⟨rfl, sync_status_with_contract_idempotent rnd1 mainC rfl⟩


/-- C4: on RnD.save of an instance with a valid (non-supplementary)
contract and non-blank uuid, a new instance (pk None) leaves save with
the status mapped from the contract's current status and that status
recorded; an existing instance is re-mapped exactly when the contract's
status differs from the recorded last_contract_status; and the mapping
sends any status outside active, suspended, completed, terminated to
in_progress. -/
theorem rnd_save_syncs_status (r : RnD) (c : Contract)
    (hc : r.contract = some c)
    (hsupp : c.type.is_supplementary = false)
    (huuid : pyStrip r.uuid ≠ "") :
    (∃ r2, RnD.save r = Except.ok r2 ∧
      (r.id = none →
        r2.status = status_mapping c.status ∧
        r2.last_contract_status = some c.status) ∧
      (r.id ≠ none →
        (r.last_contract_status = some c.status →
          r2.status = r.status ∧
          r2.last_contract_status = r.last_contract_status) ∧
        (r.last_contract_status ≠ some c.status →
          r2.status = status_mapping c.status))) ∧
    (∀ s : String, s ≠ "active" → s ≠ "suspended" → s ≠ "completed" →
      s ≠ "terminated" → status_mapping s = "in_progress") := by
  constructor
  · by_cases hl : r.last_contract_status = some c.status
    · cases hid : r.id with
      | none =>
        refine ⟨{ r with status := status_mapping c.status,
                         last_contract_status := some c.status }, ?_, ?_, ?_⟩
        · simp [RnD.save, RnD.clean, RnD.sync_status_with_contract,
            hc, hsupp, huuid, hl, hid]
        · intro _; exact ⟨rfl, rfl⟩
        · intro hne; exact absurd rfl hne
      | some k =>
        refine ⟨r, ?_, ?_, ?_⟩
        · simp [RnD.save, RnD.clean, RnD.sync_status_with_contract,
            hc, hsupp, huuid, hl, hid]
        · intro hn; exact absurd hn (by simp)
        · intro _
          exact ⟨fun _ => ⟨rfl, rfl⟩, fun hne => absurd hl hne⟩
    · by_cases hs : r.status = status_mapping c.status
      · cases hid : r.id with
        | none =>
          refine ⟨{ r with status := status_mapping c.status,
                           last_contract_status := some c.status }, ?_, ?_, ?_⟩
          · simp [RnD.save, RnD.clean, RnD.sync_status_with_contract,
              hc, hsupp, huuid, hl, hs, hid]
          · intro _; exact ⟨rfl, rfl⟩
          · intro hne; exact absurd rfl hne
        | some k =>
          refine ⟨r, ?_, ?_, ?_⟩
          · simp [RnD.save, RnD.clean, RnD.sync_status_with_contract,
              hc, hsupp, huuid, hl, hs, hid]
          · intro hn; exact absurd hn (by simp)
          · intro _
            exact ⟨fun heq => absurd heq hl, fun _ => hs⟩
      · cases hid : r.id with
        | none =>
          refine ⟨{ r with status := status_mapping c.status,
                           last_contract_status := some c.status }, ?_, ?_, ?_⟩
          · simp [RnD.save, RnD.clean, RnD.sync_status_with_contract,
              hc, hsupp, huuid, hl, hs, hid]
          · intro _; exact ⟨rfl, rfl⟩
          · intro hne; exact absurd rfl hne
        | some k =>
          refine ⟨{ r with status := status_mapping c.status,
                           last_contract_status := some c.status }, ?_, ?_, ?_⟩
          · simp [RnD.save, RnD.clean, RnD.sync_status_with_contract,
              hc, hsupp, huuid, hl, hs, hid]
          · intro hn; exact absurd hn (by simp)
          · intro _
            exact ⟨fun heq => absurd heq hl, fun _ => rfl⟩
  · intro s h1 h2 h3 h4
    simp [status_mapping, h1, h2, h3, h4]

/-- Witness for C4 at a concrete existing RnD whose recorded contract
status matches the contract. -/
theorem rnd_save_syncs_status_witness :
    rnd2.contract = some mainC ∧
    mainC.type.is_supplementary = false ∧
    pyStrip rnd2.uuid ≠ "" ∧
    ((∃ r2, RnD.save rnd2 = Except.ok r2 ∧
      (rnd2.id = none →
        r2.status = status_mapping mainC.status ∧
        r2.last_contract_status = some mainC.status) ∧
      (rnd2.id ≠ none →
        (rnd2.last_contract_status = some mainC.status →
          r2.status = rnd2.status ∧
          r2.last_contract_status = rnd2.last_contract_status) ∧
        (rnd2.last_contract_status ≠ some mainC.status →
          r2.status = status_mapping mainC.status))) ∧
    (∀ s : String, s ≠ "active" → s ≠ "suspended" → s ≠ "completed" →
      s ≠ "terminated" → status_mapping s = "in_progress")) :=
  ⟨rfl, rfl, by decide,
    rnd_save_syncs_status rnd2 mainC rfl rfl (by decide)⟩

/-- C3: for a supplementary-typed contract with non-blank number and no
self-referencing previous_version, clean (the validation run by save)
fails exactly when the main contract is missing, is itself supplementary,
or is not of the supplementary type's parent type; and a passing
validation leaves the instance unchanged, referencing a main contract
whose type is exactly the parent type. -/
theorem contract_clean_supplementary_validation (c : Contract)
    (hsupp : c.type.is_supplementary = true)
    (hnum : pyStrip c.number ≠ "")
    (hprev : ∀ pv, c.previous_version = some pv → pv ≠ c.id) :
    ((∃ e, c.clean = Except.error e) ↔
      (c.main_contract = none ∨
       ∃ mc, c.main_contract = some mc ∧
         ((c.mcType mc).is_supplementary = true ∨
          some (c.mcType mc).id ≠ c.type.parent_type))) ∧
    (∀ c2, c.clean = Except.ok c2 →
      c2 = c ∧
      ∃ mc, c.main_contract = some mc ∧
        some (c.mcType mc).id = c.type.parent_type) := by
  cases hmc : c.main_contract with
  | none =>
    have hclean : c.clean = Except.error VErr.main_contract := by
      simp [Contract.clean, Contract.cleanMainContract, hsupp, hnum, hmc]
    refine ⟨⟨fun _ => Or.inl rfl, fun _ => ⟨VErr.main_contract, hclean⟩⟩, ?_⟩
    intro c2 h
    rw [hclean] at h
    exact Except.noConfusion h
  | some mc =>
    by_cases h1 : (c.mcType mc).is_supplementary = true
    · have hclean : c.clean = Except.error VErr.main_contract := by
        simp [Contract.clean, Contract.cleanMainContract, hsupp, hnum, hmc, h1]
      refine ⟨⟨fun _ => Or.inr ⟨mc, rfl, Or.inl h1⟩,
               fun _ => ⟨VErr.main_contract, hclean⟩⟩, ?_⟩
      intro c2 h
      rw [hclean] at h
      exact Except.noConfusion h
    · by_cases h2 : some (c.mcType mc).id = c.type.parent_type
      · have hclean : c.clean = Except.ok c := by
          cases hpv : c.previous_version with
          | none => simp [Contract.clean, Contract.cleanMainContract, hsupp, hnum, hmc, h1, h2, hpv]
          | some pv =>
            have hne := hprev pv hpv
            simp [Contract.clean, Contract.cleanMainContract, hsupp, hnum, hmc, h1, h2, hpv, hne]
        constructor
        · constructor
          · rintro ⟨e, he⟩
            rw [hclean] at he
            exact Except.noConfusion he
          · intro hor
            exfalso
            rcases hor with h | ⟨mc2, hmc2, hbad⟩
            · exact Option.noConfusion h
            · injection hmc2 with h3
              subst h3
              rcases hbad with hb | hb
              · exact h1 hb
              · exact hb h2
        · intro c2 h
          rw [hclean] at h
          injection h with h3
          exact ⟨h3.symm, mc, rfl, h2⟩
      · have hclean : c.clean = Except.error VErr.main_contract := by
          simp [Contract.clean, Contract.cleanMainContract, hsupp, hnum, hmc, h1, h2]
        refine ⟨⟨fun _ => Or.inr ⟨mc, rfl, Or.inr h2⟩,
                 fun _ => ⟨VErr.main_contract, hclean⟩⟩, ?_⟩
        intro c2 h
        rw [hclean] at h
        exact Except.noConfusion h

/-- Witness for C3 at the concrete supplementary agreement suppC, whose
main contract mainC has exactly the parent type of suppType: validation
passes. -/
theorem contract_clean_supplementary_validation_witness :
    suppC.type.is_supplementary = true ∧
    pyStrip suppC.number ≠ "" ∧
    (∀ pv, suppC.previous_version = some pv → pv ≠ suppC.id) ∧
    (((∃ e, suppC.clean = Except.error e) ↔
      (suppC.main_contract = none ∨
       ∃ mc, suppC.main_contract = some mc ∧
         ((suppC.mcType mc).is_supplementary = true ∨
          some (suppC.mcType mc).id ≠ suppC.type.parent_type))) ∧
    (∀ c2, suppC.clean = Except.ok c2 →
      c2 = suppC ∧
      ∃ mc, suppC.main_contract = some mc ∧
        some (suppC.mcType mc).id = suppC.type.parent_type)) :=
  ⟨rfl, by decide, fun pv h => Option.noConfusion h,
    contract_clean_supplementary_validation suppC rfl (by decide)
      (fun pv h => Option.noConfusion h)⟩

/-- C6: get_upload_path produces, for a specification with an rnd, the
path rnd.uuid/technical_specifications/ts/rnd.uuid_ts_YYYY_MM_DD/filename
built from the current date, and without an rnd the fallback path
temp/technical_specifications/YYYY_MM_DD/filename. -/
theorem get_upload_path_format (ts : TechnicalSpecification) (d : Date)
    (filename : String) :
    (∀ r, ts.rnd = some r →
      ts.get_upload_path d filename =
        r.uuid ++ "/technical_specifications/ts/" ++ r.uuid ++ "_ts_" ++
          strftimeYmdUnderscore d ++ "/" ++ filename) ∧
    (ts.rnd = none →
      ts.get_upload_path d filename =
        "temp/technical_specifications/" ++ strftimeYmdUnderscore d ++ "/" ++
          filename) := by
  constructor
  · intro r hr
    show TechnicalSpecification.get_upload_path ts d filename = _
    rw [TechnicalSpecification.get_upload_path, hr]
    apply String.ext
    simp [ospathJoin, String.intercalate, String.intercalate.go,
      String.data_append]
  · intro hr
    show TechnicalSpecification.get_upload_path ts d filename = _
    rw [TechnicalSpecification.get_upload_path, hr]
    apply String.ext
    simp [ospathJoin, String.intercalate, String.intercalate.go,
      String.data_append]

/-- Witness for C6 at a concrete specification attached to rnd1 and at a
concrete detached specification, on the fixed date d0. -/
theorem get_upload_path_format_witness :
    (TechnicalSpecification.mk none (some rnd1) none true).rnd = some rnd1 ∧
    (TechnicalSpecification.mk none (some rnd1) none
          true).get_upload_path d0 "spec.pdf" =
      rnd1.uuid ++ "/technical_specifications/ts/" ++ rnd1.uuid ++ "_ts_" ++
        strftimeYmdUnderscore d0 ++ "/" ++ "spec.pdf" :=
  ⟨rfl,
    (get_upload_path_format (TechnicalSpecification.mk none (some rnd1) none
        true) d0 "spec.pdf").1 rnd1 rfl⟩

/-- Counterexample to C5 as stated: the factory's upload path is not a
function of the instance and the filename alone.  Two invocations with
the same instance and the same filename, differing only in the fresh
uuid4 fragment each invocation draws, produce different path strings. -/
theorem upload_path_not_determined_by_instance_and_filename :
    UploadPathFactory.for_technical_specification tsOnRnd1 "report.pdf" d0
        "aaaaaaaa" "t" ≠
      UploadPathFactory.for_technical_specification tsOnRnd1 "report.pdf" d0
        "bbbbbbbb" "t" := by
  decide

/-- C5 amended: upload-path construction is deterministic in the full
invocation context.  The factory path is a function of the instance's rnd,
the filename, the current date and the drawn uuid fragments; the drawn
fragment is recoverable from the path, so two invocations agree exactly
when their contexts do; and the model-level get_upload_path, which draws
no randomness, is determined by the instance's rnd, the date and the
filename alone. -/
theorem upload_path_deterministic_in_context
    (s1 s2 : TechnicalSpecification) (filename : String) (d : Date)
    (u t : String) (h : s1.rnd = s2.rnd) :
    UploadPathFactory.for_technical_specification s1 filename d u t =
      UploadPathFactory.for_technical_specification s2 filename d u t ∧
    (∀ u2,
      UploadPathFactory.for_technical_specification s1 filename d u t =
        UploadPathFactory.for_technical_specification s1 filename d u2 t →
      u = u2) ∧
    s1.get_upload_path d filename = s2.get_upload_path d filename := by
  refine ⟨?_, ?_, ?_⟩
  · simp [UploadPathFactory.for_technical_specification,
      UploadPathFactory.getRndUuidSafe, h]
  · intro u2 hpath
    have hd := congrArg String.data hpath
    simp [UploadPathFactory.for_technical_specification,
      UploadPathFactory.getRndUuidSafe, ospathJoin, String.intercalate,
      String.intercalate.go, String.data_append, List.append_right_inj,
      List.append_left_inj] at hd
    exact String.ext hd
  · cases hr : s1.rnd with
    | none =>
      rw [h] at hr
      simp [TechnicalSpecification.get_upload_path, hr, h.trans hr]
    | some r =>
      rw [h] at hr
      simp [TechnicalSpecification.get_upload_path, hr, h.trans hr]

/-- Witness for the amended C5 at a concrete instance, filename, date and
drawn uuid fragment. -/
theorem upload_path_deterministic_in_context_witness :
    tsOnRnd1.rnd = tsOnRnd1.rnd ∧
    (UploadPathFactory.for_technical_specification tsOnRnd1 "report.pdf" d0
        "aaaaaaaa" "t" =
      UploadPathFactory.for_technical_specification tsOnRnd1 "report.pdf" d0
        "aaaaaaaa" "t" ∧
    (∀ u2,
      UploadPathFactory.for_technical_specification tsOnRnd1 "report.pdf" d0
          "aaaaaaaa" "t" =
        UploadPathFactory.for_technical_specification tsOnRnd1 "report.pdf" d0
          u2 "t" →
      "aaaaaaaa" = u2) ∧
    tsOnRnd1.get_upload_path d0 "report.pdf" =
      tsOnRnd1.get_upload_path d0 "report.pdf") :=
  ⟨rfl, upload_path_deterministic_in_context tsOnRnd1 tsOnRnd1 "report.pdf"
    d0 "aaaaaaaa" "t" rfl⟩

/-- Counterexample to C7 as stated: the application registers five
receivers (three distinct handler functions), not exactly two; the third
function, ensure_main_contract_integrity, is a post_save receiver that
modifies contract state, shown here changing a concrete saved contract. -/
theorem signal_handlers_not_exactly_two :
    registeredContractSignalHandlers.length ≠ 2 ∧
    (SignalKind.postSave, "signals.ensure_main_contract_integrity") ∈
      registeredContractSignalHandlers ∧
    ensure_main_contract_integrity mainCNoMain ≠ mainCNoMain := by
  refine ⟨by decide, by decide, ?_⟩
  decide

/-- C7 amended: the rules are implemented by three distinct signal handler
functions, registered five times (the pre_save tracker and the post_save
RnD updater are defined both in models.py and in signals.py, with the two
updater definitions having identical database effect), plus the post_save
ensure_main_contract_integrity receiver, which touches no field of a
contract other than main_contract. -/
theorem signal_handlers_three_functions_five_registrations :
    registeredContractSignalHandlers.length = 5 ∧
    (∀ (inst : Contract) (changed : Bool) (rnds : List RnD),
      models_update_rnd_status_on_contract_status_change inst changed rnds =
        update_rnd_status_on_contract_status_change inst changed rnds) ∧
    (∀ inst : Contract,
      (ensure_main_contract_integrity inst).id = inst.id ∧
      (ensure_main_contract_integrity inst).type = inst.type ∧
      (ensure_main_contract_integrity inst).number = inst.number ∧
      (ensure_main_contract_integrity inst).status = inst.status ∧
      (ensure_main_contract_integrity inst).previous_version =
        inst.previous_version) := by
  refine ⟨rfl, fun inst changed rnds => rfl, fun inst => ?_⟩
  unfold ensure_main_contract_integrity
  split <;> simp

theorem cleanMainContract_supp_ok (c c2 : Contract)
    (hs : c.type.is_supplementary = true)
    (h : c.cleanMainContract = Except.ok c2) : c2 = c := by
  unfold Contract.cleanMainContract at h
  rw [hs] at h
  simp only [if_true] at h
  cases hmc : c.main_contract with
  | none => rw [hmc] at h; exact Except.noConfusion h
  | some mc =>
    rw [hmc] at h
    by_cases h1 : (c.mcType mc).is_supplementary
    · simp [h1] at h
    · by_cases h2 : some (c.mcType mc).id ≠ c.type.parent_type
      · simp [h1, h2] at h
      · simp [h1, h2] at h
        exact h.symm

theorem cleanMainContract_main_ok (c c2 : Contract)
    (hs : c.type.is_supplementary = false)
    (h : c.cleanMainContract = Except.ok c2) :
    c2 = { c with main_contract := some MainRef.selfRef } := by
  unfold Contract.cleanMainContract at h
  rw [hs] at h
  simp only [Bool.false_eq_true, if_false] at h
  cases hmc : c.main_contract with
  | none => rw [hmc] at h; injection h with h3; exact h3.symm
  | some mc =>
    rw [hmc] at h
    by_cases h1 : c.mcId mc ≠ c.id
    · simp [h1] at h
    · simp [h1] at h
      exact h.symm

theorem clean_ok_elim (c c2 : Contract) (h : c.clean = Except.ok c2) :
    c.cleanMainContract = Except.ok c2 ∧ pyStrip c.number ≠ "" := by
  unfold Contract.clean at h
  by_cases hn : pyStrip c.number = ""
  · rw [if_pos hn] at h; exact Except.noConfusion h
  · rw [if_neg hn] at h
    refine ⟨?_, hn⟩
    cases hcm : c.cleanMainContract with
    | error e => rw [hcm] at h; exact Except.noConfusion h
    | ok s2 =>
      rw [hcm] at h
      have h4 : (match s2.previous_version with
          | some pv =>
            if pv = s2.id then Except.error VErr.previous_version
            else Except.ok s2
          | none => Except.ok s2) = Except.ok c2 := h
      cases hpv : s2.previous_version with
      | none => rw [hpv] at h4; injection h4 with h3; rw [h3]
      | some pv =>
        rw [hpv] at h4
        by_cases h3 : pv = s2.id
        · simp [h3] at h4
        · simp [h3] at h4
          rw [h4]

theorem storeContract_fst_fields (c : Contract) (db : List Contract) :
    (storeContract c db).1.type = c.type ∧
    (storeContract c db).1.status = c.status ∧
    (storeContract c db).1.main_contract = c.main_contract := by
  unfold storeContract
  split
  · split <;> simp
  · simp

theorem fires_false_of_selfRef (c : Contract)
    (h : c.main_contract = some MainRef.selfRef) :
    ensure_main_contract_integrity_fires c = false := by
  simp [ensure_main_contract_integrity_fires, mainEqSelf, h]

theorem savePipeline_ok_of_main (c cleaned : Contract) (db : DB)
    (hclean : c.clean = Except.ok cleaned)
    (hns : c.type.is_supplementary = false) :
    Contract.savePipeline c db =
      Except.ok ((storeContract cleaned db.contracts).1,
        DB.mk (storeContract cleaned db.contracts).2
          (update_rnd_status_on_contract_status_change
            (storeContract cleaned db.contracts).1
            (track_contract_status_change cleaned db.contracts) db.rnds)) := by
  have h1 := (clean_ok_elim c cleaned hclean).1
  have hmain := cleanMainContract_main_ok c cleaned hns h1
  have hms : cleaned.main_contract = some MainRef.selfRef := by rw [hmain]
  have hf : ensure_main_contract_integrity_fires
      (storeContract cleaned db.contracts).1 = false := by
    apply fires_false_of_selfRef
    rw [(storeContract_fst_fields cleaned db.contracts).2.2, hms]
  simp only [Contract.savePipeline, hclean, hf, Bool.false_eq_true, if_false]

theorem savePipeline_ok_of_supp (c cleaned : Contract) (db : DB)
    (hclean : c.clean = Except.ok cleaned)
    (hs : c.type.is_supplementary = true) :
    Contract.savePipeline c db =
      Except.ok ((storeContract c db.contracts).1,
        DB.mk (storeContract c db.contracts).2 db.rnds) := by
  have h1 := (clean_ok_elim c cleaned hclean).1
  have hceq := cleanMainContract_supp_ok c cleaned hs h1
  subst hceq
  have hst : (storeContract cleaned db.contracts).1.type = cleaned.type :=
    (storeContract_fst_fields cleaned db.contracts).1
  have hupd : update_rnd_status_on_contract_status_change
      (storeContract cleaned db.contracts).1
      (track_contract_status_change cleaned db.contracts) db.rnds = db.rnds := by
    unfold update_rnd_status_on_contract_status_change
    simp [Contract.is_main_contract, hst, hs]
  have hf : ensure_main_contract_integrity_fires
      (storeContract cleaned db.contracts).1 = false := by
    unfold ensure_main_contract_integrity_fires
    simp [hst, hs]
  simp only [Contract.savePipeline, hclean, hf, Bool.false_eq_true, if_false,
    hupd]

/-- C8: after every successful save of a non-supplementary contract, its
main_contract reference equals the contract itself: clean assigns the
instance, and the post_save integrity receiver leaves every saved
non-supplementary contract with main_contract equal to itself. -/
theorem main_contract_self_after_save (c : Contract) (db : DB)
    (hns : c.type.is_supplementary = false) :
    (∀ stored db2, Contract.savePipeline c db = Except.ok (stored, db2) →
      stored.main_contract = some MainRef.selfRef ∧
      mainEqSelf stored stored.main_contract = true) ∧
    (∀ inst : Contract, inst.type.is_supplementary = false →
      mainEqSelf (ensure_main_contract_integrity inst)
        (ensure_main_contract_integrity inst).main_contract = true) := by
  constructor
  · intro stored db2 h
    cases hclean : c.clean with
    | error e =>
      unfold Contract.savePipeline at h
      rw [hclean] at h
      exact Except.noConfusion h
    | ok cleaned =>
      rw [savePipeline_ok_of_main c cleaned db hclean hns] at h
      injection h with h2
      rw [Prod.mk.injEq] at h2
      obtain ⟨hfst, hsnd⟩ := h2
      have hm : cleaned.main_contract = some MainRef.selfRef := by
        rw [cleanMainContract_main_ok c cleaned hns
          (clean_ok_elim c cleaned hclean).1]
      have : stored.main_contract = some MainRef.selfRef := by
        rw [← hfst, (storeContract_fst_fields cleaned db.contracts).2.2, hm]
      refine ⟨this, ?_⟩
      rw [this]
      rfl
  · intro inst hi
    unfold ensure_main_contract_integrity
    by_cases hfire : ensure_main_contract_integrity_fires inst = true
    · rw [if_pos hfire]
      rfl
    · rw [if_neg hfire]
      unfold ensure_main_contract_integrity_fires at hfire
      simp [hi] at hfire
      exact hfire

/-- C9: saving a supplementary agreement, whatever its status, leaves
every RnD row of the database (status and last_contract_status included)
unchanged: the post-save RnD update runs only for main contracts. -/
theorem supplementary_save_preserves_rnds (c : Contract) (db : DB)
    (hs : c.type.is_supplementary = true) :
    ∀ stored db2, Contract.savePipeline c db = Except.ok (stored, db2) →
      db2.rnds = db.rnds := by
  intro stored db2 h
  cases hclean : c.clean with
  | error e =>
    unfold Contract.savePipeline at h
    rw [hclean] at h
    exact Except.noConfusion h
  | ok cleaned =>
    rw [savePipeline_ok_of_supp c cleaned db hclean hs] at h
    injection h with h2
    rw [Prod.mk.injEq] at h2
    obtain ⟨hfst, hsnd⟩ := h2
    rw [← hsnd]

theorem track_true_elim (inst : Contract) (contracts : List Contract)
    (h : track_contract_status_change inst contracts = true) :
    ∃ k, inst.id = some k ∧
      contracts.any (fun x => x.id == some k) = true := by
  unfold track_contract_status_change at h
  cases hid : inst.id with
  | none => rw [hid] at h; exact Bool.noConfusion h
  | some k =>
    rw [hid] at h
    have h4 : (match contracts.find? (fun c => c.id == some k) with
        | some old => old.status != inst.status
        | none => false) = true := h
    cases hf : contracts.find? (fun c => c.id == some k) with
    | none => rw [hf] at h4; exact Bool.noConfusion h4
    | some old =>
      refine ⟨k, rfl, ?_⟩
      have hp := List.find?_some hf
      exact List.any_eq_true.mpr
        ⟨old, List.mem_of_find?_eq_some hf, hp⟩

theorem storeContract_existing (c : Contract) (db : List Contract) (k : Nat)
    (hid : c.id = some k)
    (hmem : db.any (fun x => x.id == some k) = true) :
    (storeContract c db).1 = c := by
  unfold storeContract
  rw [hid]
  simp only [hmem, if_true]

theorem rndLinkedTo_congr (a b : Contract) (hid : a.id = b.id) (r : RnD) :
    rndLinkedTo a r = rndLinkedTo b r := by
  unfold rndLinkedTo
  rw [hid]

/-- C1 amended: when a main contract whose status changed is saved, every
linked RnD ends with the status mapped from the contract's new status;
those whose status actually changed also record the contract's new status
in last_contract_status, while linked RnD works already at the mapped
status are left entirely unchanged (their last_contract_status is not
refreshed); RnD works linked to other contracts keep their state. -/
theorem contract_status_cascade (c cleaned : Contract) (db : DB)
    (hclean : c.clean = Except.ok cleaned)
    (hns : c.type.is_supplementary = false)
    (hch : track_contract_status_change cleaned db.contracts = true) :
    ∃ stored db2, Contract.savePipeline c db = Except.ok (stored, db2) ∧
      db2.rnds.length = db.rnds.length ∧
      ∀ i (h1 : i < db.rnds.length) (h2 : i < db2.rnds.length),
        (rndLinkedTo c db.rnds[i] = true →
          db2.rnds[i].status = status_mapping c.status ∧
          (db.rnds[i].status ≠ status_mapping c.status →
            db2.rnds[i].last_contract_status = some c.status) ∧
          (db.rnds[i].status = status_mapping c.status →
            db2.rnds[i] = db.rnds[i])) ∧
        (rndLinkedTo c db.rnds[i] = false →
          db2.rnds[i] = db.rnds[i]) := by
  obtain ⟨k, hid, hmem⟩ := track_true_elim cleaned db.contracts hch
  have hmainEq := cleanMainContract_main_ok c cleaned hns
    (clean_ok_elim c cleaned hclean).1
  have hstatus : cleaned.status = c.status := by rw [hmainEq]
  have hcid : cleaned.id = c.id := by rw [hmainEq]
  have htype : cleaned.type = c.type := by rw [hmainEq]
  have hstore : (storeContract cleaned db.contracts).1 = cleaned :=
    storeContract_existing cleaned db.contracts k hid hmem
  have hlink : ∀ r, rndLinkedTo cleaned r = rndLinkedTo c r :=
    rndLinkedTo_congr cleaned c hcid
  have hupd : update_rnd_status_on_contract_status_change cleaned
      (track_contract_status_change cleaned db.contracts) db.rnds =
      db.rnds.map (fun r =>
        if rndLinkedTo c r && r.status != status_mapping c.status
        then { r with status := status_mapping c.status,
                      last_contract_status := some c.status }
        else r) := by
    rw [hch]
    unfold update_rnd_status_on_contract_status_change
    simp [Contract.is_main_contract, htype, hns, hstatus, hlink]
  have hpipe := savePipeline_ok_of_main c cleaned db hclean hns
  rw [hstore, hupd] at hpipe
  refine ⟨cleaned, _, hpipe, by simp, ?_⟩
  intro i h1 h2
  simp only [List.getElem_map]
  by_cases hlk : rndLinkedTo c db.rnds[i] = true
  · by_cases hst2 : db.rnds[i].status = status_mapping c.status
    · refine ⟨fun _ => ⟨by simp [hlk, hst2], fun hne => absurd hst2 hne,
        fun _ => by simp [hlk, hst2]⟩, fun hf => ?_⟩
      rw [hlk] at hf
      exact Bool.noConfusion hf
    · refine ⟨fun _ => ⟨by simp [hlk, hst2], fun _ => by simp [hlk, hst2],
        fun heq => absurd heq hst2⟩, fun hf => ?_⟩
      rw [hlk] at hf
      exact Bool.noConfusion hf
  · have hlkf : rndLinkedTo c db.rnds[i] = false := by
      simpa using hlk
    exact ⟨fun ht => absurd ht hlk, fun _ => by simp [hlkf]⟩

theorem mem_map_of_fixpoint {α : Type} (f : α → α) (l : List α) (t : α)
    (hmem : t ∈ l) (hfix : f t = t) : t ∈ l.map f := by
  have := List.mem_map_of_mem f hmem
  rwa [hfix] at this

theorem length_le_one_of_pairwise_ne_of_all_eq
    (l : List TechnicalSpecification) (j : Option Nat)
    (hpd : l.Pairwise (fun a b => a.id ≠ b.id))
    (hall : ∀ t ∈ l, t.id = j) : l.length ≤ 1 := by
  match l, hpd with
  | [], _ => simp
  | [a], _ => simp
  | a :: b :: rest, hpd =>
    exfalso
    have hab : a.id ≠ b.id := (List.pairwise_cons.mp hpd).1 b (by simp)
    have ha := hall a (by simp)
    have hb := hall b (by simp)
    exact hab (ha.trans hb.symm)

theorem filter_length_le_of_deactivating
    (f : TechnicalSpecification → TechnicalSpecification)
    (p : TechnicalSpecification → Bool)
    (hf : ∀ t, p (f t) = true → f t = t) :
    ∀ l : List TechnicalSpecification,
      ((l.map f).filter p).length ≤ (l.filter p).length := by
  intro l
  induction l with
  | nil => simp
  | cons a l ih =>
    simp only [List.map_cons, List.filter_cons]
    by_cases hpa : p (f a) = true
    · have hfx := hf a hpa
      have hpa2 : p a = true := by rw [← hfx]; exact hpa
      rw [hfx]
      simp only [hpa2, if_true, List.length_cons]
      omega
    · simp only [Bool.not_eq_true] at hpa
      rw [hpa]
      simp only [Bool.false_eq_true, if_false]
      by_cases hpa2 : p a = true
      · simp only [hpa2, if_true, List.length_cons]
        omega
      · simp only [Bool.not_eq_true] at hpa2
        rw [hpa2]
        simp only [Bool.false_eq_true, if_false]
        exact ih

theorem ts_clean_ok_elim (ts : TechnicalSpecification)
    (db db3 : List TechnicalSpecification)
    (h : ts.clean db = Except.ok db3) :
    db3 = if ts.is_active then deactivate_other_versions ts db else db := by
  unfold TechnicalSpecification.clean at h
  by_cases hdoc : ts.documentOk = true
  · rw [if_pos hdoc] at h
    injection h with h2
    exact h2.symm
  · rw [if_neg hdoc] at h
    exact Except.noConfusion h

theorem deactivate_eq_map (ts : TechnicalSpecification) (r : RnD) (k : Nat)
    (db : List TechnicalSpecification)
    (hr : ts.rnd = some r) (hk : r.id = some k) :
    deactivate_other_versions ts db = db.map (fun t =>
      if t.rndPk == some k && t.is_active && t.id != ts.id
      then { t with is_active := false } else t) := by
  unfold deactivate_other_versions
  simp only [hr, hk]

theorem deactivate_fun_cases (ts : TechnicalSpecification) (k : Nat)
    (t : TechnicalSpecification) :
    ((if t.rndPk == some k && t.is_active && t.id != ts.id
      then { t with is_active := false } else t).rndPk == some k &&
     (if t.rndPk == some k && t.is_active && t.id != ts.id
      then { t with is_active := false } else t).is_active) = true →
    (if t.rndPk == some k && t.is_active && t.id != ts.id
     then { t with is_active := false } else t) = t ∧ t.id = ts.id := by
  intro hP
  by_cases hc : (t.rndPk == some k && t.is_active && t.id != ts.id) = true
  · rw [if_pos hc] at hP
    simp [TechnicalSpecification.rndPk] at hP
  · rw [if_neg hc] at hP ⊢
    refine ⟨rfl, ?_⟩
    simp only [Bool.and_eq_true] at hP
    simp only [Bool.and_eq_true, not_and, Bool.not_eq_true] at hc
    have := hc ⟨hP.1, hP.2⟩
    simpa using this

theorem pairwise_ne_id_map (f : TechnicalSpecification → TechnicalSpecification)
    (l : List TechnicalSpecification)
    (hfid : ∀ t, (f t).id = t.id)
    (h : l.Pairwise (fun a b => a.id ≠ b.id)) :
    (l.map f).Pairwise (fun a b => a.id ≠ b.id) := by
  rw [List.pairwise_map]
  refine h.imp ?_
  intro a b hab
  rw [hfid, hfid]
  exact hab

theorem deactivate_fun_id (ts : TechnicalSpecification) (k : Nat)
    (t : TechnicalSpecification) :
    (if t.rndPk == some k && t.is_active && t.id != ts.id
     then { t with is_active := false } else t).id = t.id := by
  split <;> rfl

/-- C2: after a successful save of a TechnicalSpecification attached to a
stored RnD, at most one specification of that RnD in the database is
active, provided the saved instance is active (the bulk update then
deactivates every other one unconditionally) or the database already
satisfied the invariant; rows of other RnD works that are not the saved
row are still present afterwards.  The database-shaped hypotheses say
rows have primary keys and these are unique. -/
theorem ts_save_at_most_one_active (ts ts2 : TechnicalSpecification)
    (db db2 : List TechnicalSpecification) (r : RnD) (k : Nat)
    (hr : ts.rnd = some r) (hk : r.id = some k)
    (hsave : ts.save db = Except.ok (ts2, db2))
    (hids : ∀ t ∈ db, t.id ≠ none)
    (hnodup : db.Pairwise (fun a b => a.id ≠ b.id))
    (hpre : ts.is_active = true ∨
      (db.filter (fun t => t.rndPk == some k && t.is_active)).length ≤ 1) :
    (db2.filter (fun t => t.rndPk == some k && t.is_active)).length ≤ 1 ∧
    (∀ t ∈ db, t.rndPk ≠ some k → t.id ≠ ts.id → t ∈ db2) := by
  unfold TechnicalSpecification.save at hsave
  cases hcl : ts.clean db with
  | error e => rw [hcl] at hsave; exact Except.noConfusion hsave
  | ok db3 =>
    rw [hcl] at hsave
    have hdb3 := ts_clean_ok_elim ts db db3 hcl
    -- membership of untouched rows in db3
    have hmem3 : ∀ t ∈ db, t.rndPk ≠ some k → t ∈ db3 := by
      intro t htm hrk
      by_cases hact : ts.is_active = true
      · rw [hdb3, if_pos hact, deactivate_eq_map ts r k db hr hk]
        apply mem_map_of_fixpoint _ _ _ htm
        have : (t.rndPk == some k) = false := by
          simp [hrk]
        simp [this]
      · rw [hdb3, if_neg hact]
        exact htm
    -- every active row of the same rnd in db3 carries the id of ts
    have hact3 : ts.is_active = true →
        ∀ t ∈ db3, (t.rndPk == some k && t.is_active) = true →
          t.id = ts.id := by
      intro hact t htm hP
      rw [hdb3, if_pos hact, deactivate_eq_map ts r k db hr hk] at htm
      rcases List.mem_map.mp htm with ⟨t0, _, rfl⟩
      have hc := deactivate_fun_cases ts k t0 hP
      rw [hc.1]
      exact hc.2
    -- db3 preserves ids of db positionally
    have hids3 : ∀ t ∈ db3, t.id ≠ none := by
      intro t htm
      by_cases hact : ts.is_active = true
      · rw [hdb3, if_pos hact, deactivate_eq_map ts r k db hr hk] at htm
        rcases List.mem_map.mp htm with ⟨t0, ht0, rfl⟩
        rw [deactivate_fun_id]
        exact hids t0 ht0
      · rw [hdb3, if_neg hact] at htm
        exact hids t htm
    have hnodup3 : db3.Pairwise (fun a b => a.id ≠ b.id) := by
      by_cases hact : ts.is_active = true
      · rw [hdb3, if_pos hact, deactivate_eq_map ts r k db hr hk]
        exact pairwise_ne_id_map _ db (deactivate_fun_id ts k) hnodup
      · rw [hdb3, if_neg hact]
        exact hnodup
    have hfil3 : ¬ ts.is_active = true →
        (db3.filter (fun t => t.rndPk == some k && t.is_active)).length ≤ 1 := by
      intro hact
      rw [hdb3, if_neg hact]
      rcases hpre with h | h
      · exact absurd h hact
      · exact h
    cases hid : ts.id with
    | some j =>
      have hsave2 : (if db3.any (fun t => t.id == some j) then
          Except.ok (ts, db3.map (fun t => if t.id == some j then ts else t))
        else Except.ok (ts, db3 ++ [ts])) =
          (Except.ok (ts2, db2) :
            Except VErr (TechnicalSpecification ×
              List TechnicalSpecification)) := by
        rw [hid] at hsave
        exact hsave
      by_cases hany : db3.any (fun t => t.id == some j) = true
      · -- UPDATE of the existing row
        rw [if_pos hany] at hsave2
        injection hsave2 with h2
        rw [Prod.mk.injEq] at h2
        obtain ⟨hts2, hdb2⟩ := h2
        constructor
        · by_cases hact : ts.is_active = true
          · -- all active rows of rnd k in db2 carry id j
            have hall : ∀ t ∈ db2.filter
                (fun t => t.rndPk == some k && t.is_active),
                t.id = some j := by
              intro t htf
              have htm := (List.mem_filter.mp htf).1
              have hP := (List.mem_filter.mp htf).2
              rw [← hdb2] at htm
              rcases List.mem_map.mp htm with ⟨t1, ht1, rfl⟩
              by_cases hjj : (t1.id == some j) = true
              · simp only [hjj, if_true]
                rw [hid]
              · simp only [hjj, Bool.false_eq_true, if_false] at hP ⊢
                have := hact3 hact t1 ht1 hP
                rw [this, hid]
            have hpair2 : db2.Pairwise (fun a b => a.id ≠ b.id) := by
              rw [← hdb2]
              apply pairwise_ne_id_map _ _ _ hnodup3
              intro t
              by_cases hjj : (t.id == some j) = true
              · simp only [hjj, if_true]
                rw [hid]
                exact (beq_iff_eq.mp hjj).symm
              · simp only [hjj, Bool.false_eq_true, if_false]
            exact length_le_one_of_pairwise_ne_of_all_eq _ (some j)
              (List.Pairwise.sublist (List.filter_sublist db2) hpair2) hall
          · -- inactive save never increases the count
            have hle := filter_length_le_of_deactivating
              (fun t => if t.id == some j then ts else t)
              (fun t => t.rndPk == some k && t.is_active) ?_ db3
            · rw [hdb2] at hle
              exact le_trans hle (hfil3 hact)
            · intro t hP
              by_cases hjj : (t.id == some j) = true
              · simp only [hjj, if_true] at hP ⊢
                exfalso
                apply hact
                simp only [Bool.and_eq_true] at hP
                exact hP.2
              · simp only [hjj, Bool.false_eq_true, if_false]
        · intro t htm hrk hti
          rw [← hdb2]
          apply mem_map_of_fixpoint _ _ _ (hmem3 t htm hrk)
          have : (t.id == some j) = false := by
            simp [hti]
          simp [this]
      · -- row with this pk missing: INSERT
        rw [if_neg hany] at hsave2
        injection hsave2 with h2
        rw [Prod.mk.injEq] at h2
        obtain ⟨hts2, hdb2⟩ := h2
        have hfil3nil : db3.filter
            (fun t => t.rndPk == some k && t.is_active) = [] ∨
            ¬ ts.is_active = true := by
          by_cases hact : ts.is_active = true
          · left
            rw [List.filter_eq_nil_iff]
            intro t htm hP
            have := hact3 hact t htm (by simpa using hP)
            apply hany
            refine List.any_eq_true.mpr ⟨t, htm, ?_⟩
            rw [this, hid]
            exact beq_self_eq_true (some j)
          · right
            exact hact
        constructor
        · rw [← hdb2, List.filter_append]
          rcases hfil3nil with hnil | hact
          · rw [hnil]
            simp only [List.nil_append]
            exact List.length_filter_le _ [ts]
          · rw [List.length_append]
            have h1 := hfil3 hact
            have h2 : ((List.filter
                (fun t => t.rndPk == some k && t.is_active) [ts])).length = 0 := by
              have : (ts.rndPk == some k && ts.is_active) = false := by
                simp only [Bool.not_eq_true] at hact
                simp [hact]
              simp [List.filter, this]
            omega
        · intro t htm hrk _
          rw [← hdb2]
          exact List.mem_append_left _ (hmem3 t htm hrk)
    | none =>
      have hsave2 : (Except.ok
          ({ ts with id := some (tsFreshId db3) },
            db3 ++ [{ ts with id := some (tsFreshId db3) }]) :
            Except VErr (TechnicalSpecification ×
              List TechnicalSpecification)) =
          Except.ok (ts2, db2) := by
        rw [hid] at hsave
        exact hsave
      injection hsave2 with h2
      rw [Prod.mk.injEq] at h2
      obtain ⟨hts2, hdb2⟩ := h2
      have hfil3nil : db3.filter
          (fun t => t.rndPk == some k && t.is_active) = [] ∨
          ¬ ts.is_active = true := by
        by_cases hact : ts.is_active = true
        · left
          rw [List.filter_eq_nil_iff]
          intro t htm hP
          have hidt := hact3 hact t htm (by simpa using hP)
          rw [hid] at hidt
          exact hids3 t htm hidt
        · right
          exact hact
      constructor
      · rw [← hdb2, List.filter_append]
        rcases hfil3nil with hnil | hact
        · rw [hnil]
          simp only [List.nil_append]
          exact List.length_filter_le _ _
        · rw [List.length_append]
          have h1 := hfil3 hact
          have h2 : ((List.filter (fun t => t.rndPk == some k && t.is_active)
              [{ ts with id := some (tsFreshId db3) }])).length = 0 := by
            have : (({ ts with id := some (tsFreshId db3) }
                : TechnicalSpecification).rndPk == some k &&
                ({ ts with id := some (tsFreshId db3) }
                : TechnicalSpecification).is_active) = false := by
              simp only [Bool.not_eq_true] at hact
              simp [TechnicalSpecification.rndPk, hact]
            simp [List.filter, this]
          omega
      · intro t htm hrk _
        rw [← hdb2]
        exact List.mem_append_left _ (hmem3 t htm hrk)

/-- Counterexample to C1 as stated: saving the main contract mainC with
its status changed to active leaves the linked rnd1, which already held
the mapped status in_progress, with its stale last_contract_status
(suspended) instead of the contract's new status (active). -/
theorem status_cascade_skips_unchanged_rnds :
    Contract.savePipeline mainCActive dbBefore =
      Except.ok (mainCActive,
        DB.mk [mainCActive, otherC] [rnd1, rnd2Updated, rndOther]) ∧
    mainCActive.type.is_supplementary = false ∧
    track_contract_status_change mainCActive dbBefore.contracts = true ∧
    rndLinkedTo mainCActive rnd1 = true ∧
    rnd1.status = status_mapping mainCActive.status ∧
    rnd1.last_contract_status ≠ some mainCActive.status := by
  refine ⟨rfl, rfl, rfl, rfl, rfl, ?_⟩
  decide

/-- Witness for the amended C1 at the concrete save of mainCActive. -/
theorem contract_status_cascade_witness :
    mainCActive.clean = Except.ok mainCActive ∧
    mainCActive.type.is_supplementary = false ∧
    track_contract_status_change mainCActive dbBefore.contracts = true ∧
    (∃ stored db2,
      Contract.savePipeline mainCActive dbBefore =
        Except.ok (stored, db2) ∧
      db2.rnds.length = dbBefore.rnds.length ∧
      ∀ i (h1 : i < dbBefore.rnds.length) (h2 : i < db2.rnds.length),
        (rndLinkedTo mainCActive dbBefore.rnds[i] = true →
          db2.rnds[i].status = status_mapping mainCActive.status ∧
          (dbBefore.rnds[i].status ≠ status_mapping mainCActive.status →
            db2.rnds[i].last_contract_status = some mainCActive.status) ∧
          (dbBefore.rnds[i].status = status_mapping mainCActive.status →
            db2.rnds[i] = dbBefore.rnds[i])) ∧
        (rndLinkedTo mainCActive dbBefore.rnds[i] = false →
          db2.rnds[i] = dbBefore.rnds[i])) :=
  ⟨rfl, rfl, rfl,
    contract_status_cascade mainCActive mainCActive dbBefore rfl rfl rfl⟩

/-- Witness for C2 at the concrete save of the active tsOnRnd1 into a
database holding an older active specification of the same rnd and a
specification of another rnd. -/
theorem ts_save_at_most_one_active_witness :
    tsOnRnd1.rnd = some rnd1 ∧
    rnd1.id = some 11 ∧
    tsOnRnd1.save [tsOld, tsOther] =
      Except.ok (tsOnRnd1, [tsOldDeactivated, tsOther, tsOnRnd1]) ∧
    (∀ t ∈ ([tsOld, tsOther] : List TechnicalSpecification), t.id ≠ none) ∧
    List.Pairwise (fun a b => a.id ≠ b.id)
      ([tsOld, tsOther] : List TechnicalSpecification) ∧
    tsOnRnd1.is_active = true ∧
    (([tsOldDeactivated, tsOther, tsOnRnd1].filter
        (fun t => t.rndPk == some 11 && t.is_active)).length ≤ 1 ∧
      (∀ t ∈ ([tsOld, tsOther] : List TechnicalSpecification),
        t.rndPk ≠ some 11 → t.id ≠ tsOnRnd1.id →
        t ∈ [tsOldDeactivated, tsOther, tsOnRnd1])) :=
  ⟨rfl, rfl, rfl, by decide, by decide, rfl,
    ts_save_at_most_one_active tsOnRnd1 tsOnRnd1 [tsOld, tsOther]
      [tsOldDeactivated, tsOther, tsOnRnd1] rnd1 11 rfl rfl rfl
      (by decide) (by decide) (Or.inl rfl)⟩

/-- Witness for C8 at the concrete save of mainCActive into dbBefore. -/
theorem main_contract_self_after_save_witness :
    mainCActive.type.is_supplementary = false ∧
    ((∀ stored db2,
      Contract.savePipeline mainCActive dbBefore = Except.ok (stored, db2) →
      stored.main_contract = some MainRef.selfRef ∧
      mainEqSelf stored stored.main_contract = true) ∧
    (∀ inst : Contract, inst.type.is_supplementary = false →
      mainEqSelf (ensure_main_contract_integrity inst)
        (ensure_main_contract_integrity inst).main_contract = true)) :=
  ⟨rfl, main_contract_self_after_save mainCActive dbBefore rfl⟩

/-- Witness for C9 at the concrete save of the supplementary agreement
suppC with a changed status. -/
theorem supplementary_save_preserves_rnds_witness :
    suppCSuspended.type.is_supplementary = true ∧
    (∀ stored db2,
      Contract.savePipeline suppCSuspended dbForSupp =
        Except.ok (stored, db2) →
      db2.rnds = dbForSupp.rnds) :=
  ⟨rfl, supplementary_save_preserves_rnds suppCSuspended dbForSupp rfl⟩
